import Mathlib

/-!
Verification development for the Envoy HTTP IP tagging filter configuration
(source/common/http/filter/ip_tagging_filter.h).

The configuration constructor, the request-type enum translation and the
accessors are embedded from the header source. The collaborating classes
`Network::Address::CidrRange`, `Network::LcTrie::LcTrie` and the per-request
resolver body are declared but not defined in the available sources; their
behaviour is modelled from the specification (sections 4.1 to 4.3), as marked
on each such definition.
-/

set_option maxRecDepth 4000

namespace Envoy

/-- Address family of an IP value: IPv4 or IPv6. -/
inductive Family where
  | v4
  | v6
deriving DecidableEq

/-- Bit width of an address of the given family. -/
def Family.width : Family → Nat
  | .v4 => 32
  | .v6 => 128

/-- An IP address: a family together with its numeric value (32 or 128 bits). -/
structure IpAddress where
  fam : Family
  bits : Nat
deriving DecidableEq

/-- Modelled from the spec (section 3, AddressRange; common/network/cidr_range.h
is not among the available sources): an address family, a network value whose
bits beyond the mask length are cleared on construction, and a mask length. -/
structure CidrRange where
  fam : Family
  netBits : Nat
  len : Nat
deriving DecidableEq

/-- Clear the bits of `addr` beyond the first `len` bits of a `fam`-width value
(canonical network form). -/
def CidrRange.canonical (fam : Family) (addr len : Nat) : CidrRange :=
  ⟨fam, addr / 2 ^ (fam.width - len) * 2 ^ (fam.width - len), len⟩

/-- Modelled from the spec (section 4.1): membership test.  True exactly when
the address is of the same family and its top `len` bits equal the network
bits of the range. -/
def CidrRange.contains (r : CidrRange) (a : IpAddress) : Bool :=
  decide (r.fam = a.fam) &&
    decide (a.bits / 2 ^ (r.fam.width - r.len) = r.netBits / 2 ^ (r.fam.width - r.len))

/-- A raw CIDR entry as it arrives from configuration: the address literal and
the mask-bit count (proto `envoy.api.v2.core.CidrRange`). -/
structure ProtoCidr where
  addrStr : String
  maskLen : Nat
deriving DecidableEq

/-- Split a character list at every occurrence of the separator. -/
def splitOnChar (sep : Char) : List Char → List (List Char)
  | [] => [[]]
  | c :: cs =>
    match splitOnChar sep cs with
    | [] => if c = sep then [[], [c]] else [[c]]
    | g :: gs => if c = sep then [] :: g :: gs else (c :: g) :: gs

/-- Value of a single decimal digit character. -/
def digVal (c : Char) : Option Nat :=
  if 48 ≤ c.toNat && c.toNat ≤ 57 then some (c.toNat - 48) else none

/-- Numeric value of a decimal IPv4 octet text: one to three digits, at most 255. -/
def parseOctet (cs : List Char) : Option Nat :=
  if cs.length = 0 || 3 < cs.length then none
  else
    match cs.mapM digVal with
    | some ds =>
      let n := ds.foldl (fun acc d => acc * 10 + d) 0
      if n ≤ 255 then some n else none
    | none => none

/-- Modelled from the spec (section 4.1): parse a dotted-quad IPv4 literal into
its 32-bit value. -/
def parseIPv4 (s : String) : Option Nat :=
  match (splitOnChar '.' s.data).mapM parseOctet with
  | some [a, b, c, d] => some (((a * 256 + b) * 256 + c) * 256 + d)
  | _ => none

/-- Value of a single hexadecimal digit character. -/
def hexVal (c : Char) : Option Nat :=
  if 48 ≤ c.toNat && c.toNat ≤ 57 then some (c.toNat - 48)
  else if 97 ≤ c.toNat && c.toNat ≤ 102 then some (c.toNat - 87)
  else if 65 ≤ c.toNat && c.toNat ≤ 70 then some (c.toNat - 55)
  else none

/-- Numeric value of one 16-bit hexadecimal group of an IPv6 literal. -/
def parseHexGroup (cs : List Char) : Option Nat :=
  if cs.length = 0 || 4 < cs.length then none
  else (cs.mapM hexVal).map (fun ds => ds.foldl (fun acc d => acc * 16 + d) 0)

/-- Modelled from the spec (section 4.1): parse an eight-group colon-separated
IPv6 literal into its 128-bit value (the compressed double-colon form is not
needed by any claim and is treated as unparsable). -/
def parseIPv6 (s : String) : Option Nat :=
  match (splitOnChar ':' s.data).mapM parseHexGroup with
  | some gs => if gs.length = 8 then some (gs.foldl (fun acc g => acc * 65536 + g) 0) else none
  | none => none

/-- Modelled from the spec (section 4.1, `parse`): build a validated
`CidrRange` from a raw entry, or `none` when the address literal is malformed
or the mask length exceeds the width of the detected family.  This plays the
role of `CidrRange::create` followed by `isValid()` in the source. -/
def CidrRange.createOpt (e : ProtoCidr) : Option CidrRange :=
  match parseIPv4 e.addrStr with
  | some a => if e.maskLen ≤ 32 then some (CidrRange.canonical .v4 a e.maskLen) else none
  | none =>
    match parseIPv6 e.addrStr with
    | some a => if e.maskLen ≤ 128 then some (CidrRange.canonical .v6 a e.maskLen) else none
    | none => none

/-- One tag of the trie input: a tag name and the ranges declared for it
(the pair built by the constructor loop). -/
structure TagEntry where
  name : String
  ranges : List CidrRange
deriving DecidableEq

/-- Modelled from the spec (section 4.2, TagIndex; common/network/lc_trie.h is
not among the available sources): the built index holds the ordered tag data
it was constructed from. -/
structure LcTrie where
  entries : List TagEntry
deriving DecidableEq

/-- Keep the first occurrence of each string, dropping strings already seen. -/
def dedupFirstAux (seen : List String) : List String → List String
  | [] => []
  | x :: xs => if x ∈ seen then dedupFirstAux seen xs else x :: dedupFirstAux (x :: seen) xs

/-- Collapse duplicates of a list of strings, keeping first occurrences in order. -/
def dedupFirst (l : List String) : List String := dedupFirstAux [] l

/-- Modelled from the spec (section 4.2, `lookup`): collect the names of every
tag one of whose ranges covers the address, in original declaration order,
with duplicate names collapsed to the first occurrence. -/
def LcTrie.lookup (t : LcTrie) (a : IpAddress) : List String :=
  dedupFirst ((t.entries.filter (fun e => e.ranges.any (fun r => r.contains a))).map TagEntry.name)

/-- Type of requests the filter should apply to (source line 22). -/
inductive FilterRequestType where
  | INTERNAL
  | EXTERNAL
  | BOTH
deriving DecidableEq

/-- The closed proto enum `IPTagging.RequestType` (the proto file is not among
the available sources; the spec table in section 6 gives the closed value set
with `both` as the default). -/
inductive ProtoRequestType where
  | BOTH
  | INTERNAL
  | EXTERNAL
deriving DecidableEq

/-- Modelled from the spec (section 6): the proto wire value of each enum
member; the proto default value is 0, which is `BOTH`. -/
def ProtoRequestType.toNum : ProtoRequestType → Nat
  | .BOTH => 0
  | .INTERNAL => 1
  | .EXTERNAL => 2

/-- The `requestTypeEnum` switch of the source (lines 73 to 85) over the raw
numeric proto value: the three known values translate, anything else reaches
the `NOT_REACHED` default branch, embedded as `none`. -/
def requestTypeEnumNum : Nat → Option FilterRequestType
  | 0 => some .BOTH
  | 1 => some .INTERNAL
  | 2 => some .EXTERNAL
  | _ => none

/-- `requestTypeEnum` restricted to the closed proto enum. -/
def requestTypeEnum (rt : ProtoRequestType) : FilterRequestType :=
  match rt with
  | .BOTH => .BOTH
  | .INTERNAL => .INTERNAL
  | .EXTERNAL => .EXTERNAL

/-- One `ip_tag` message of the filter proto: a tag name and its CIDR list. -/
structure IpTag where
  ip_tag_name : String
  ip_list : List ProtoCidr
deriving DecidableEq

/-- The `IPTagging` filter proto consumed by the constructor. -/
structure IPTaggingProto where
  request_type : ProtoRequestType
  ip_tags : List IpTag
deriving DecidableEq

/-- `Envoy::EnvoyException`: carries an error message. -/
structure EnvoyException where
  msg : String
deriving DecidableEq

/-- The message of the exception thrown for an invalid CIDR entry
(source lines 55 to 57). -/
def invalidMsg (e : ProtoCidr) : String :=
  "invalid ip/mask combo '" ++ e.addrStr ++ "/" ++ toString e.maskLen ++
    "' (format is <ip>/<# mask bits>)"

/-- The message of the exception thrown when `ip_tags` is empty
(source line 39). -/
def emptyTagSetMsg : String := "HTTP IP Tagging Filter requires ip_tags to be specified."

/-- The inner constructor loop over one `ip_list` (source lines 47 to 59):
validate each entry in order, collecting the ranges, and throw on the first
invalid entry. -/
def buildCidrSet : List ProtoCidr → Except EnvoyException (List CidrRange)
  | [] => .ok []
  | e :: rest =>
    match CidrRange.createOpt e with
    | some c =>
      match buildCidrSet rest with
      | .ok cs => .ok (c :: cs)
      | .error ex => .error ex
    | none => .error ⟨invalidMsg e⟩

/-- The outer constructor loop over `ip_tags` (source lines 43 to 62): build
the tag data pairs in declaration order, propagating the first error. -/
def buildTagData : List IpTag → Except EnvoyException (List TagEntry)
  | [] => .ok []
  | t :: rest =>
    match buildCidrSet t.ip_list with
    | .error ex => .error ex
    | .ok cs =>
      match buildTagData rest with
      | .error ex => .error ex
      | .ok rest2 => .ok (⟨t.ip_tag_name, cs⟩ :: rest2)

/-- The built filter configuration (source lines 27 to 92): request type,
stats key, and the constructed trie. -/
structure IpTaggingFilterConfig where
  request_type : FilterRequestType
  stats_pfx : String
  trie : LcTrie
deriving DecidableEq

/-- The `IpTaggingFilterConfig` constructor (source lines 29 to 64): reject an
empty `ip_tags` list, validate every CIDR of every tag in order, and only then
build the trie.  Thrown `EnvoyException`s are embedded as `Except.error`. -/
def IpTaggingFilterConfig.make (config : IPTaggingProto) (stat_pfx : String) :
    Except EnvoyException IpTaggingFilterConfig :=
  if config.ip_tags.length = 0 then
    .error ⟨emptyTagSetMsg⟩
  else
    match buildTagData config.ip_tags with
    | .error ex => .error ex
    | .ok td =>
      .ok { request_type := requestTypeEnum config.request_type,
            stats_pfx := stat_pfx ++ "ip_tagging.",
            trie := ⟨td⟩ }

/-- Accessor `requestType()` (source line 68), embedded as a state-passing
operation returning the value and the configuration it leaves behind. -/
def IpTaggingFilterConfig.requestTypeOp (c : IpTaggingFilterConfig) :
    FilterRequestType × IpTaggingFilterConfig := (c.request_type, c)

/-- Accessor `trie()` (source line 69), state-passing form. -/
def IpTaggingFilterConfig.trieOp (c : IpTaggingFilterConfig) :
    LcTrie × IpTaggingFilterConfig := (c.trie, c)

/-- Accessor `statsPrefix()` (source line 70), state-passing form. -/
def IpTaggingFilterConfig.statsPfxOp (c : IpTaggingFilterConfig) :
    String × IpTaggingFilterConfig := (c.stats_pfx, c)

/-- A lookup performed through the configuration, state-passing form. -/
def IpTaggingFilterConfig.lookupOp (c : IpTaggingFilterConfig) (a : IpAddress) :
    List String × IpTaggingFilterConfig := (c.trie.lookup a, c)

/-- Modelled from the spec (section 4.3, `resolve`; the filter body
`decodeHeaders` is declared but not defined in the available sources): the
per-request decision.  An `enabled = false` call returns empty with no lookup;
then the request-class gate applies; otherwise the trie lookup result is
returned verbatim. -/
def resolve (t : LcTrie) (gate : FilterRequestType) (a : IpAddress)
    (is_internal : Bool) (enabled : Bool) : List String :=
  if enabled = false then []
  else if gate = FilterRequestType.INTERNAL && is_internal = false then []
  else if gate = FilterRequestType.EXTERNAL && is_internal = true then []
  else t.lookup a

/-- Whether the haystack begins with the needle (both as character lists). -/
def listStarts : List Char → List Char → Bool
  | [], _ => true
  | _ :: _, [] => false
  | n :: ns, h :: hs => decide (n = h) && listStarts ns hs

/-- Whether the needle occurs contiguously anywhere in the haystack. -/
def listOccurs (needle : List Char) : List Char → Bool
  | [] => listStarts needle []
  | h :: hs => listStarts needle (h :: hs) || listOccurs needle hs

/-- Whether one string occurs as a contiguous substring of another. -/
def occursIn (needle hay : String) : Bool := listOccurs needle.data hay.data

/-! ## Helper lemmas -/

theorem mem_dedupFirstAux (x : String) (l : List String) : ∀ (seen : List String),
    x ∈ dedupFirstAux seen l ↔ x ∈ l ∧ x ∉ seen := by
  induction l with
  | nil => intro seen; simp [dedupFirstAux]
  | cons y ys ih =>
    intro seen
    by_cases h : y ∈ seen
    · rw [dedupFirstAux, if_pos h, ih]
      by_cases hxy : x = y
      · subst hxy; simp [h]
      · simp [hxy]
    · rw [dedupFirstAux, if_neg h]
      by_cases hxy : x = y
      · subst hxy; simp [h]
      · simp [List.mem_cons, ih (y :: seen), hxy]

theorem nodup_dedupFirstAux (l : List String) : ∀ (seen : List String),
    (dedupFirstAux seen l).Nodup := by
  induction l with
  | nil => intro seen; simp [dedupFirstAux]
  | cons y ys ih =>
    intro seen
    by_cases h : y ∈ seen
    · rw [dedupFirstAux, if_pos h]; exact ih seen
    · rw [dedupFirstAux, if_neg h, List.nodup_cons]
      refine ⟨fun hy => ?_, ih _⟩
      exact ((mem_dedupFirstAux y ys _).1 hy).2 (List.mem_cons_self y seen)

theorem dedupFirstAux_sublist (l : List String) : ∀ (seen : List String),
    List.Sublist (dedupFirstAux seen l) l := by
  induction l with
  | nil => intro seen; simp [dedupFirstAux]
  | cons y ys ih =>
    intro seen
    by_cases h : y ∈ seen
    · rw [dedupFirstAux, if_pos h]
      exact (ih seen).trans (List.sublist_cons_self y ys)
    · rw [dedupFirstAux, if_neg h]
      exact List.Sublist.cons₂ y (ih _)

theorem mem_lookup_iff (t : LcTrie) (a : IpAddress) (s : String) :
    s ∈ t.lookup a ↔ ∃ e ∈ t.entries, e.name = s ∧ ∃ r ∈ e.ranges, r.contains a = true := by
  rw [LcTrie.lookup, dedupFirst, mem_dedupFirstAux]
  simp only [List.not_mem_nil, not_false_iff, and_true, List.mem_map, List.mem_filter,
    List.any_eq_true]
  constructor
  · rintro ⟨e, ⟨he, r, hr, hc⟩, rfl⟩
    exact ⟨e, he, rfl, r, hr, hc⟩
  · rintro ⟨e, he, rfl, r, hr, hc⟩
    exact ⟨e, ⟨he, r, hr, hc⟩, rfl⟩

theorem lookup_nodup (t : LcTrie) (a : IpAddress) : (t.lookup a).Nodup :=
  nodup_dedupFirstAux _ _

theorem lookup_sublist_names (t : LcTrie) (a : IpAddress) :
    List.Sublist (t.lookup a) (t.entries.map TagEntry.name) :=
  (dedupFirstAux_sublist _ _).trans (List.Sublist.map _ (List.filter_sublist _))

theorem buildCidrSet_error_mem : ∀ {l : List ProtoCidr} {ex : EnvoyException},
    buildCidrSet l = .error ex →
    ∃ e ∈ l, CidrRange.createOpt e = none ∧ ex = ⟨invalidMsg e⟩ := by
  intro l
  induction l with
  | nil => intro ex h; simp [buildCidrSet] at h
  | cons e rest ih =>
    intro ex h
    simp only [buildCidrSet] at h
    split at h
    next c hc =>
      split at h
      next cs hr => exact absurd h (by simp)
      next ex2 hr =>
        injection h with h2
        subst h2
        obtain ⟨e2, he2, hco, hex⟩ := ih hr
        exact ⟨e2, List.mem_cons_of_mem e he2, hco, hex⟩
    next hc =>
      injection h with h2
      exact ⟨e, List.mem_cons_self e rest, hc, h2.symm⟩

theorem buildCidrSet_ok_valid : ∀ {l : List ProtoCidr} {cs : List CidrRange},
    buildCidrSet l = .ok cs → ∀ e ∈ l, (CidrRange.createOpt e).isSome = true := by
  intro l
  induction l with
  | nil => intro cs h e he; simp at he
  | cons e0 rest ih =>
    intro cs h e he
    simp only [buildCidrSet] at h
    split at h
    next c hc =>
      split at h
      next cs2 hr =>
        rcases List.mem_cons.1 he with rfl | hmem
        · simp [hc]
        · exact ih hr e hmem
      next ex2 hr => exact absurd h (by simp)
    next hc => exact absurd h (by simp)

theorem buildCidrSet_ok_of_valid : ∀ {l : List ProtoCidr},
    (∀ e ∈ l, (CidrRange.createOpt e).isSome = true) →
    ∃ cs, buildCidrSet l = .ok cs := by
  intro l
  induction l with
  | nil => intro _; exact ⟨[], rfl⟩
  | cons e rest ih =>
    intro hv
    obtain ⟨c, hc⟩ := Option.isSome_iff_exists.1 (hv e (List.mem_cons_self e rest))
    obtain ⟨cs, hcs⟩ := ih (fun e2 he2 => hv e2 (List.mem_cons_of_mem e he2))
    exact ⟨c :: cs, by simp [buildCidrSet, hc, hcs]⟩

theorem buildTagData_error_mem : ∀ {l : List IpTag} {ex : EnvoyException},
    buildTagData l = .error ex →
    ∃ t ∈ l, ∃ e ∈ t.ip_list, CidrRange.createOpt e = none ∧ ex = ⟨invalidMsg e⟩ := by
  intro l
  induction l with
  | nil => intro ex h; simp [buildTagData] at h
  | cons t rest ih =>
    intro ex h
    simp only [buildTagData] at h
    split at h
    next ex2 hr =>
      injection h with h2
      subst h2
      obtain ⟨e, he, hco, hex⟩ := buildCidrSet_error_mem hr
      exact ⟨t, List.mem_cons_self t rest, e, he, hco, hex⟩
    next cs hr =>
      split at h
      next ex2 hr2 =>
        injection h with h2
        subst h2
        obtain ⟨t2, ht2, e, he, hco, hex⟩ := ih hr2
        exact ⟨t2, List.mem_cons_of_mem t ht2, e, he, hco, hex⟩
      next td hr2 => exact absurd h (by simp)

theorem buildTagData_ok_valid : ∀ {l : List IpTag} {td : List TagEntry},
    buildTagData l = .ok td →
    ∀ t ∈ l, ∀ e ∈ t.ip_list, (CidrRange.createOpt e).isSome = true := by
  intro l
  induction l with
  | nil => intro td h t ht; simp at ht
  | cons t0 rest ih =>
    intro td h t ht e he
    simp only [buildTagData] at h
    split at h
    next ex2 hr => exact absurd h (by simp)
    next cs hr =>
      split at h
      next ex2 hr2 => exact absurd h (by simp)
      next td2 hr2 =>
        rcases List.mem_cons.1 ht with rfl | hmem
        · exact buildCidrSet_ok_valid hr e he
        · exact ih hr2 t hmem e he

theorem buildTagData_ok_of_valid : ∀ {l : List IpTag},
    (∀ t ∈ l, ∀ e ∈ t.ip_list, (CidrRange.createOpt e).isSome = true) →
    ∃ td, buildTagData l = .ok td ∧
      ∀ t ∈ l, t.ip_list = [] → (⟨t.ip_tag_name, []⟩ : TagEntry) ∈ td := by
  intro l
  induction l with
  | nil => intro _; exact ⟨[], rfl, by simp⟩
  | cons t rest ih =>
    intro hv
    obtain ⟨cs, hcs⟩ := buildCidrSet_ok_of_valid (hv t (List.mem_cons_self t rest))
    obtain ⟨td, htd, hmem⟩ := ih (fun t2 h2 => hv t2 (List.mem_cons_of_mem t h2))
    refine ⟨⟨t.ip_tag_name, cs⟩ :: td, by simp [buildTagData, hcs, htd], ?_⟩
    intro t2 ht2 hnil
    rcases List.mem_cons.1 ht2 with rfl | hmem2
    · have hcs2 : cs = [] := by
        rw [hnil] at hcs
        simpa [buildCidrSet] using hcs.symm
      rw [hcs2]
      exact List.mem_cons_self _ _
    · exact List.mem_cons_of_mem _ (hmem t2 hmem2 hnil)

theorem invalidMsg_head (e : ProtoCidr) : (invalidMsg e).data.head? = some 'i' := by
  simp only [invalidMsg, String.data_append]
  rfl

theorem invalidMsg_ne_emptyTagSetMsg (e : ProtoCidr) : invalidMsg e ≠ emptyTagSetMsg := by
  intro h
  have h2 : (invalidMsg e).data.head? = emptyTagSetMsg.data.head? := by rw [h]
  rw [invalidMsg_head e] at h2
  exact absurd h2 (by decide)

/-! ## Claim theorems -/

/-- Claim C1: for every built index and every address, `lookup` returns exactly
the names of the tags one of whose ranges covers the address (all covering
ranges, not only the most specific), without duplicates, in original
tag-declaration order; and the concrete build from A = 10.0.0.0/8 and
B = 10.1.0.0/16 looked up at 10.1.2.3 returns ["A", "B"]. -/
theorem lookup_collects_every_covering_tag :
    (∀ (t : LcTrie) (a : IpAddress),
      (∀ s : String, s ∈ t.lookup a ↔
        ∃ e ∈ t.entries, e.name = s ∧ ∃ r ∈ e.ranges, r.contains a = true)
      ∧ (t.lookup a).Nodup
      ∧ List.Sublist (t.lookup a) (t.entries.map TagEntry.name))
    ∧ (IpTaggingFilterConfig.make
          ⟨.BOTH, [⟨"A", [⟨"10.0.0.0", 8⟩]⟩, ⟨"B", [⟨"10.1.0.0", 16⟩]⟩]⟩ "p").map
        (fun c => c.trie.lookup ⟨.v4, 167838211⟩) = .ok ["A", "B"] :=
  ⟨fun t a => ⟨mem_lookup_iff t a, lookup_nodup t a, lookup_sublist_names t a⟩, rfl⟩

/-- Claim C2: `resolve` returns empty when disabled (no lookup), returns empty
when the Internal gate faces an external request or the External gate faces an
internal one, and otherwise returns the trie lookup verbatim (the Both gate
always proceeds). -/
theorem resolve_gate_spec :
    ∀ (t : LcTrie) (g : FilterRequestType) (a : IpAddress) (ii : Bool),
      resolve t g a ii false = []
      ∧ resolve t .INTERNAL a false true = []
      ∧ resolve t .EXTERNAL a true true = []
      ∧ resolve t .BOTH a ii true = t.lookup a
      ∧ resolve t .INTERNAL a true true = t.lookup a
      ∧ resolve t .EXTERNAL a false true = t.lookup a :=
  fun t _ a ii => ⟨rfl, rfl, rfl, by cases ii <;> rfl, rfl, rfl⟩

/-- Claim C3: constructing from an empty tag list fails with the empty-tag-set
error, and no non-empty tag list ever produces that error. -/
theorem build_empty_fails_emptyTagSet :
    (∀ (rt : ProtoRequestType) (p : String),
        IpTaggingFilterConfig.make ⟨rt, []⟩ p = .error ⟨emptyTagSetMsg⟩)
    ∧ ∀ (cfg : IPTaggingProto) (p : String) (ex : EnvoyException),
        cfg.ip_tags ≠ [] → IpTaggingFilterConfig.make cfg p = .error ex →
        ex.msg ≠ emptyTagSetMsg := by
  constructor
  · intro rt p; rfl
  · intro cfg p ex hne h
    simp only [IpTaggingFilterConfig.make] at h
    rw [if_neg (fun h0 => hne (List.length_eq_zero.1 h0))] at h
    split at h
    next ex2 hr =>
      injection h with h2
      subst h2
      obtain ⟨t, ht, e, he, hco, hex⟩ := buildTagData_error_mem hr
      rw [hex]
      exact invalidMsg_ne_emptyTagSetMsg e
    next td hr => exact absurd h (by simp)

/-- Witness for claim C3 at a concrete non-empty configuration whose single
CIDR entry is malformed. -/
theorem build_empty_fails_emptyTagSet_witness :
    ("invalid ip/mask combo 'bad/8' (format is <ip>/<# mask bits>)" : String)
      ≠ emptyTagSetMsg :=
  build_empty_fails_emptyTagSet.2 ⟨.BOTH, [⟨"t", [⟨"bad", 8⟩]⟩]⟩ "p"
    ⟨"invalid ip/mask combo 'bad/8' (format is <ip>/<# mask bits>)"⟩
    (by decide) (by rfl)

/-- Counterexample for claim C4 as stated: at this concrete configuration the
construction error message carries the offending CIDR text but not the name
of the declaring tag. -/
theorem invalid_cidr_error_lacks_tag_name :
    IpTaggingFilterConfig.make ⟨.BOTH, [⟨"tag_a", [⟨"not_an_ip", 8⟩]⟩]⟩ "p"
        = .error ⟨"invalid ip/mask combo 'not_an_ip/8' (format is <ip>/<# mask bits>)"⟩
      ∧ occursIn "not_an_ip"
          "invalid ip/mask combo 'not_an_ip/8' (format is <ip>/<# mask bits>)" = true
      ∧ occursIn "tag_a"
          "invalid ip/mask combo 'not_an_ip/8' (format is <ip>/<# mask bits>)" = false :=
  ⟨rfl, by decide, by decide⟩

/-- Claim C4 as amended: for every configuration containing a malformed CIDR
entry, construction fails and the surfaced error message is exactly the
invalid-combo message built from the offending address text and mask length
(the declaring tag name is not part of it). -/
theorem make_surfaces_offending_cidr :
    ∀ (cfg : IPTaggingProto) (p : String),
      (∃ t ∈ cfg.ip_tags, ∃ e ∈ t.ip_list, CidrRange.createOpt e = none) →
      ∃ ex, IpTaggingFilterConfig.make cfg p = .error ex ∧
        ∃ t ∈ cfg.ip_tags, ∃ e ∈ t.ip_list,
          CidrRange.createOpt e = none ∧ ex.msg = invalidMsg e := by
  intro cfg p hinv
  have hne : cfg.ip_tags ≠ [] := by
    obtain ⟨t, ht, _⟩ := hinv
    intro h0
    rw [h0] at ht
    simp at ht
  cases hr : buildTagData cfg.ip_tags with
  | ok td =>
    obtain ⟨t, ht, e, he, hco⟩ := hinv
    have hv := buildTagData_ok_valid hr t ht e he
    rw [hco] at hv
    simp at hv
  | error ex =>
    refine ⟨ex, ?_, ?_⟩
    · simp only [IpTaggingFilterConfig.make]
      rw [if_neg (fun h0 => hne (List.length_eq_zero.1 h0)), hr]
    · obtain ⟨t, ht, e, he, hco, hex⟩ := buildTagData_error_mem hr
      exact ⟨t, ht, e, he, hco, by rw [hex]⟩

/-- Witness for the amended claim C4 at a concrete malformed configuration. -/
theorem make_surfaces_offending_cidr_witness :
    ∃ ex, IpTaggingFilterConfig.make ⟨.BOTH, [⟨"tag_a", [⟨"not_an_ip", 8⟩]⟩]⟩ "p"
        = .error ex ∧
      ∃ t ∈ (⟨.BOTH, [⟨"tag_a", [⟨"not_an_ip", 8⟩]⟩]⟩ : IPTaggingProto).ip_tags,
        ∃ e ∈ t.ip_list, CidrRange.createOpt e = none ∧ ex.msg = invalidMsg e :=
  make_surfaces_offending_cidr _ "p"
    ⟨⟨"tag_a", [⟨"not_an_ip", 8⟩]⟩, by decide, ⟨"not_an_ip", 8⟩, by decide, by decide⟩

/-- Claim C5: construction is atomic.  In the embedding a configuration value
exists only through an `Except.ok` result, and an `ok` result implies that the
tag list was non-empty and every CIDR entry of every tag validated. -/
theorem make_atomic :
    ∀ (cfg : IPTaggingProto) (p : String),
      (∃ c, IpTaggingFilterConfig.make cfg p = .ok c) →
      cfg.ip_tags ≠ [] ∧
        ∀ t ∈ cfg.ip_tags, ∀ e ∈ t.ip_list, (CidrRange.createOpt e).isSome = true := by
  rintro cfg p ⟨c, hc⟩
  by_cases h0 : cfg.ip_tags.length = 0
  · rw [IpTaggingFilterConfig.make, if_pos h0] at hc
    exact absurd hc (by simp)
  · refine ⟨fun hnil => h0 (by rw [hnil]; rfl), ?_⟩
    rw [IpTaggingFilterConfig.make, if_neg h0] at hc
    split at hc
    next ex hr => exact absurd hc (by simp)
    next td hr => exact buildTagData_ok_valid hr

/-- Witness for claim C5 at a concrete configuration that builds. -/
theorem make_atomic_witness :
    (⟨.BOTH, [⟨"A", [⟨"10.0.0.0", 8⟩]⟩]⟩ : IPTaggingProto).ip_tags ≠ [] ∧
      ∀ t ∈ (⟨.BOTH, [⟨"A", [⟨"10.0.0.0", 8⟩]⟩]⟩ : IPTaggingProto).ip_tags,
        ∀ e ∈ t.ip_list, (CidrRange.createOpt e).isSome = true :=
  make_atomic _ "p"
    ⟨⟨.BOTH, "pip_tagging.", ⟨[⟨"A", [⟨.v4, 167772160, 8⟩]⟩]⟩⟩, rfl⟩

/-- Claim C6: lookup is a total function with no error outcome; when no range
covers the address, and in particular when every registered range is of a
different family than the address, the result is the normal empty list. -/
theorem lookup_never_errors :
    ∀ (t : LcTrie) (a : IpAddress),
      ((∀ e ∈ t.entries, ∀ r ∈ e.ranges, r.contains a = false) → t.lookup a = [])
      ∧ ((∀ e ∈ t.entries, ∀ r ∈ e.ranges, r.fam ≠ a.fam) → t.lookup a = []) := by
  intro t a
  have key : (∀ e ∈ t.entries, ∀ r ∈ e.ranges, r.contains a = false) → t.lookup a = [] := by
    intro hno
    rw [List.eq_nil_iff_forall_not_mem]
    intro s hs
    obtain ⟨e, he, _, r, hr, hcv⟩ := (mem_lookup_iff t a s).1 hs
    rw [hno e he r hr] at hcv
    exact Bool.false_ne_true hcv
  refine ⟨key, fun hfam => key ?_⟩
  intro e he r hr
  have hf := hfam e he r hr
  simp [CidrRange.contains, hf]

/-- Witness for claim C6: an IPv6 address against an index holding only an
IPv4 range yields the empty result. -/
theorem lookup_never_errors_witness :
    LcTrie.lookup ⟨[⟨"A", [⟨.v4, 167772160, 8⟩]⟩]⟩ ⟨.v6, 0⟩ = [] :=
  (lookup_never_errors ⟨[⟨"A", [⟨.v4, 167772160, 8⟩]⟩]⟩ ⟨.v6, 0⟩).2 (by decide)

/-- Claim C7: construction is deterministic.  Two configurations built from
identical input are equal and give identical lookup results at every
address. -/
theorem make_deterministic :
    ∀ (cfg : IPTaggingProto) (p : String) (c1 c2 : IpTaggingFilterConfig) (a : IpAddress),
      IpTaggingFilterConfig.make cfg p = .ok c1 →
      IpTaggingFilterConfig.make cfg p = .ok c2 →
      c1 = c2 ∧ c1.trie.lookup a = c2.trie.lookup a := by
  intro cfg p c1 c2 a h1 h2
  rw [h1] at h2
  injection h2 with h3
  exact ⟨h3, by rw [h3]⟩

/-- Witness for claim C7: the same concrete configuration built twice. -/
theorem make_deterministic_witness :
    (⟨.BOTH, "pip_tagging.", ⟨[⟨"A", [⟨.v4, 167772160, 8⟩]⟩]⟩⟩ : IpTaggingFilterConfig)
        = ⟨.BOTH, "pip_tagging.", ⟨[⟨"A", [⟨.v4, 167772160, 8⟩]⟩]⟩⟩
      ∧ LcTrie.lookup ⟨[⟨"A", [⟨.v4, 167772160, 8⟩]⟩]⟩ ⟨.v4, 167838211⟩
        = LcTrie.lookup ⟨[⟨"A", [⟨.v4, 167772160, 8⟩]⟩]⟩ ⟨.v4, 167838211⟩ :=
  make_deterministic ⟨.BOTH, [⟨"A", [⟨"10.0.0.0", 8⟩]⟩]⟩ "p" _ _ ⟨.v4, 167838211⟩ rfl rfl

/-- Claim C8: the request-type switch translates each member of the closed
proto enum, its default branch (the `none` outcome over raw numerals) is never
taken on the closed set, and the proto default value 0 maps to BOTH. -/
theorem requestTypeEnum_closed_total :
    (∀ rt : ProtoRequestType, requestTypeEnumNum rt.toNum = some (requestTypeEnum rt))
      ∧ requestTypeEnumNum 0 = some FilterRequestType.BOTH
      ∧ ProtoRequestType.BOTH.toNum = 0
      ∧ requestTypeEnum .BOTH = .BOTH
      ∧ requestTypeEnum .INTERNAL = .INTERNAL
      ∧ requestTypeEnum .EXTERNAL = .EXTERNAL := by
  refine ⟨fun rt => ?_, rfl, rfl, rfl, rfl, rfl⟩
  cases rt <;> rfl

/-- Claim C9: the built configuration is read-only.  Every accessor, embedded
as a state-passing operation, returns the stored component and leaves the
configuration unchanged. -/
theorem config_read_only :
    ∀ (c : IpTaggingFilterConfig) (a : IpAddress),
      (c.requestTypeOp.2 = c ∧ c.requestTypeOp.1 = c.request_type)
      ∧ (c.trieOp.2 = c ∧ c.trieOp.1 = c.trie)
      ∧ (c.statsPfxOp.2 = c ∧ c.statsPfxOp.1 = c.stats_pfx)
      ∧ ((c.lookupOp a).2 = c ∧ (c.lookupOp a).1 = c.trie.lookup a) :=
  fun _ _ => ⟨⟨rfl, rfl⟩, ⟨rfl, rfl⟩, ⟨rfl, rfl⟩, ⟨rfl, rfl⟩⟩

/-- Claim C10: a tag declaring zero CIDR ranges is accepted.  A non-empty tag
list whose every entry validates builds successfully, and each tag with an
empty range list appears in the trie with an empty range set. -/
theorem empty_range_tag_accepted :
    ∀ (cfg : IPTaggingProto) (p : String),
      cfg.ip_tags ≠ [] →
      (∀ t ∈ cfg.ip_tags, ∀ e ∈ t.ip_list, (CidrRange.createOpt e).isSome = true) →
      ∃ c, IpTaggingFilterConfig.make cfg p = .ok c ∧
        ∀ t ∈ cfg.ip_tags, t.ip_list = [] →
          (⟨t.ip_tag_name, []⟩ : TagEntry) ∈ c.trie.entries := by
  intro cfg p hne hv
  obtain ⟨td, htd, hmem⟩ := buildTagData_ok_of_valid hv
  refine ⟨⟨requestTypeEnum cfg.request_type, p ++ "ip_tagging.", ⟨td⟩⟩, ?_, hmem⟩
  rw [IpTaggingFilterConfig.make, if_neg (fun h0 => hne (List.length_eq_zero.1 h0)), htd]

/-- Witness for claim C10: a configuration whose only tag declares no range
builds, and the tag reaches the trie with an empty range set. -/
theorem empty_range_tag_accepted_witness :
    ∃ c, IpTaggingFilterConfig.make ⟨.BOTH, [⟨"no_ranges", []⟩]⟩ "p" = .ok c ∧
      ∀ t ∈ (⟨.BOTH, [⟨"no_ranges", []⟩]⟩ : IPTaggingProto).ip_tags, t.ip_list = [] →
        (⟨t.ip_tag_name, []⟩ : TagEntry) ∈ c.trie.entries :=
  empty_range_tag_accepted _ "p" (by decide) (by decide)

end Envoy
